import Mathlib

/-!
A verification development for the sort-order subsystem of `maflib`
(`src/maflib/sort_order.py`): the `SortOrder` registry, the key comparator
machinery (`SortOrderKey.compare`, `_CoordinateKey`,
`_BarcodesAndCoordinateKey`), the streaming `SortOrderChecker` and the
`SortOrderEnforcingIterator`.

The Python code is shallowly embedded: records are a structure exposing the
externally-consumed interface (`chromosome`/`start`/`end` of `Locatable`
plus the two barcode fields fetched through `MafRecord.value`), Python
`None` is `Option.none`, raised exceptions are modelled as the pair
(unchanged state, `some message`) - a Python `raise` exits `__iadd__`
before any assignment to `self` - and the duck-typed per-field comparison
of `SortOrderKey.compare` is polymorphic over a linear order, matching its
docstring ("two objects of the same type that have a total ordering").
Because `Coordinate._contigs` is fixed at construction, every key produced
by one sort-order instance carries the same chromosome representation:
an `Int` rank when a contig list is active, the raw chromosome value
otherwise; the key types are therefore parametric in the chromosome type.
-/

namespace Maflib

/-- The external record interface consumed by this subsystem: the
`Locatable` capability (`chromosome`, `start`, `end`) plus the two
barcode fields that `_BarcodesAndCoordinateKey.__init__` fetches with
`record.value("Tumor_Sample_Barcode")` and
`record.value("Matched_Norm_Sample_Barcode")`.  Any field may be
Python `None`. -/
structure MafRecord where
  chromosome : Option String
  start : Option Int
  «end» : Option Int
  tumor_barcode : Option String
  normal_barcode : Option String
deriving DecidableEq, Repr

/-- The closed set of sort-order variants (`Unknown`, `Unsorted`,
`BarcodesAndCoordinate`, `Coordinate`). -/
inductive SortOrderVariant where
  | Unknown
  | Unsorted
  | BarcodesAndCoordinate
  | Coordinate
deriving DecidableEq, Repr

/-- `Unknown.name()` / `Unsorted.name()` / `BarcodesAndCoordinate.name()` /
`Coordinate.name()`. -/
def SortOrderVariant.name : SortOrderVariant → String
  | .Unknown => "Unknown"
  | .Unsorted => "Unsorted"
  | .BarcodesAndCoordinate => "BarcodesAndCoordinate"
  | .Coordinate => "Coordinate"

/-- `SortOrder.all()`: the known sort order classes, in registry order. -/
def SortOrder.all : List SortOrderVariant :=
  [.Unknown, .Unsorted, .BarcodesAndCoordinate, .Coordinate]

/-- The message of the `ValueError` raised by `SortOrder.find` on an
unmatched name: `"Could not find sort order '%s', options: %s"` with the
registered names joined by `", "`. -/
def findErrorMsg (sort_order_name : String) : String :=
  "Could not find sort order '" ++ sort_order_name ++ "', options: " ++
    String.intercalate ", " (SortOrder.all.map SortOrderVariant.name)

/-- `SortOrder.find(name)`: the first registered class whose `name()`
equals the argument (`next(iter([so for so in SortOrder.all() if
so.name() == sort_order_name]), None)`), or a `ValueError` listing all
options when none matches. -/
def SortOrder.find (sort_order_name : String) : Except String SortOrderVariant :=
  match (SortOrder.all.filter (fun so => so.name == sort_order_name)).head? with
  | some so => Except.ok so
  | none => Except.error (findErrorMsg sort_order_name)

/-- `SortOrderKey.compare(this, that)`: `0` when both are `None`, a `None`
orders after anything (`this is None → 1`, `that is None → -1`), and
otherwise the Python idiom `(this > that) - (this < that)` with booleans
counted as `0`/`1`. -/
def SortOrderKey.compare {α : Type} [LinearOrder α] : Option α → Option α → Int
  | Option.none, Option.none => 0
  | Option.none, some _ => 1
  | some _, Option.none => -1
  | some a, some b => (if b < a then 1 else 0) - (if a < b then 1 else 0)

/-- `_CoordinateKey`: the `Locatable` triple stored by
`Locatable.__init__(self, chromosome, record.start, record.end)`.  The
chromosome slot holds either an `Int` rank (contig list active) or the
raw chromosome value, so the type is parametric in `χ`. -/
structure CoordinateKey (χ : Type) where
  chromosome : Option χ
  start : Option Int
  «end» : Option Int
deriving DecidableEq, Repr

/-- `_CoordinateKey.__cmp__`: compare chromosome, then on a zero
difference the start, then on a zero difference the end. -/
def CoordinateKey.cmp {χ : Type} [LinearOrder χ] (a b : CoordinateKey χ) : Int :=
  let diff := SortOrderKey.compare a.chromosome b.chromosome
  let diff := if diff = 0 then SortOrderKey.compare a.start b.start else diff
  let diff := if diff = 0 then SortOrderKey.compare a.«end» b.«end» else diff
  diff

/-- Python `str(x)` for a value that is a string or `None`, as used by the
`%s` formatting of the unknown-contig message. -/
def pyStrOfOpt : Option String → String
  | Option.none => "None"
  | some s => s

/-- `list.index` of Python: the index of the first occurrence, `none`
when absent (where Python raises `ValueError`). -/
def listIndex (l : List String) (x : String) : Option Nat :=
  match l with
  | [] => Option.none
  | y :: ys => if y = x then some 0 else (listIndex ys x).map (· + 1)

/-- The message of the `ValueError` raised by `_CoordinateKey.__init__`
when the chromosome is not in the contig list: `"Could not find contig
'%s' in list of contigs: %s"` with the contigs joined by `", "`. -/
def unknownContigMsg (chromosome : Option String) (contigs : List String) : String :=
  "Could not find contig '" ++ pyStrOfOpt chromosome ++ "' in list of contigs: " ++
    String.intercalate ", " contigs

/-- `_CoordinateKey.__init__` on the truthy-contigs branch: replace the
record's chromosome by `contigs.index(chromosome)` and keep `start` and
`end`; an absent chromosome (including `None`) raises the unknown-contig
`ValueError`. -/
def mkCoordinateKeyRanked (contigs : List String) (record : MafRecord) :
    Except String (CoordinateKey Nat) :=
  match record.chromosome.bind (fun c => listIndex contigs c) with
  | some i => Except.ok ⟨some i, record.start, record.«end»⟩
  | Option.none => Except.error (unknownContigMsg record.chromosome contigs)

/-- `_CoordinateKey.__init__` on the falsy-contigs branch (`contigs` is
`None` or empty): the chromosome value is stored unchanged. -/
def mkCoordinateKeyRaw (record : MafRecord) : CoordinateKey String :=
  ⟨record.chromosome, record.start, record.«end»⟩

/-- A key produced by `Coordinate.sort_key()`: ranked when a contig list
is active, raw otherwise. -/
inductive DerivedCoordinateKey where
  | ranked : CoordinateKey Nat → DerivedCoordinateKey
  | raw : CoordinateKey String → DerivedCoordinateKey
deriving DecidableEq, Repr

/-- Python truthiness of the `contigs` attribute: `None` and the empty
list are falsy. -/
def contigsTruthy : Option (List String) → Bool
  | Option.none => false
  | some cs => !cs.isEmpty

/-- The contig-list normalisation of `Coordinate.__init__(contigs=...)`:
the `elif contigs:` guard leaves `self._contigs = None` for a `None` or
empty argument and copies the list otherwise.  (The `fasta_index` branch
performs file I/O and is outside this embedding.) -/
def coordinateInitContigs (contigs : Option (List String)) : Option (List String) :=
  match contigs with
  | Option.none => Option.none
  | some cs => if cs.isEmpty then Option.none else some cs

/-- The key function returned by `Coordinate.sort_key()` applied to a
record: `_CoordinateKey(record=record, contigs=self._contigs)`, with the
`if contigs:` truthiness dispatch of `_CoordinateKey.__init__`. -/
def coordinateSortKeyFn (contigs : Option (List String)) (record : MafRecord) :
    Except String DerivedCoordinateKey :=
  if contigsTruthy contigs then
    (mkCoordinateKeyRanked (contigs.getD []) record).map DerivedCoordinateKey.ranked
  else
    Except.ok (DerivedCoordinateKey.raw (mkCoordinateKeyRaw record))

/-- `_BarcodesAndCoordinateKey`: the two barcode fields plus the inherited
`_CoordinateKey` state (inheritance modelled as containment). -/
structure BarcodesAndCoordinateKey (χ : Type) where
  tumor_barcode : Option String
  normal_barcode : Option String
  toCoordinateKey : CoordinateKey χ
deriving DecidableEq, Repr

/-- `_BarcodesAndCoordinateKey.__cmp__`: compare the tumor barcodes, then
on a zero difference the normal barcodes, then on a zero difference
delegate to `_CoordinateKey.__cmp__`. -/
def BarcodesAndCoordinateKey.cmp {χ : Type} [LinearOrder χ]
    (a b : BarcodesAndCoordinateKey χ) : Int :=
  let diff := SortOrderKey.compare a.tumor_barcode b.tumor_barcode
  let diff := if diff = 0 then SortOrderKey.compare a.normal_barcode b.normal_barcode else diff
  let diff := if diff = 0 then CoordinateKey.cmp a.toCoordinateKey b.toCoordinateKey else diff
  diff

/-- `_BarcodesAndCoordinateKey.__init__` on the truthy-contigs branch:
fetch the two barcodes and build the inherited coordinate key (whose
unknown-contig `ValueError` propagates). -/
def mkBarcodesAndCoordinateKeyRanked (contigs : List String) (record : MafRecord) :
    Except String (BarcodesAndCoordinateKey Nat) :=
  (mkCoordinateKeyRanked contigs record).map
    (fun ck => ⟨record.tumor_barcode, record.normal_barcode, ck⟩)

/-- A key produced by `BarcodesAndCoordinate.sort_key()`. -/
inductive DerivedBarcodesKey where
  | ranked : BarcodesAndCoordinateKey Nat → DerivedBarcodesKey
  | raw : BarcodesAndCoordinateKey String → DerivedBarcodesKey
deriving DecidableEq, Repr

/-- The key function returned by `BarcodesAndCoordinate.sort_key()`
applied to a record, with the same `if contigs:` dispatch as the parent. -/
def barcodesSortKeyFn (contigs : Option (List String)) (record : MafRecord) :
    Except String DerivedBarcodesKey :=
  if contigsTruthy contigs then
    (mkBarcodesAndCoordinateKeyRanked (contigs.getD []) record).map DerivedBarcodesKey.ranked
  else
    Except.ok (DerivedBarcodesKey.raw
      ⟨record.tumor_barcode, record.normal_barcode, mkCoordinateKeyRaw record⟩)

/-- `Unknown.sort_key()`: raises `NotImplementedError`. -/
def unknownSortKey : Except String (MafRecord → Except String Unit) :=
  Except.error "Sorting not supported for Unknown order."

/-- `Unsorted.sort_key()`: raises `NotImplementedError`. -/
def unsortedSortKey : Except String (MafRecord → Except String Unit) :=
  Except.error "Sorting not supported for Unsorted order."

/-- `SortOrderChecker` state: `_last_rec` (the previous record, `None`
before the first `add`) and `_sort_f` (the key function, `None` when
`sort_order.sort_key()` raised `NotImplementedError`).  The key type `κ`
is fixed per checker because the bound ordering is. -/
structure SortOrderChecker (κ : Type) where
  last_rec : Option MafRecord
  sort_f : Option (MafRecord → Except String κ)

/-- `SortOrderChecker.__init__(sort_order)`: try `sort_order.sort_key()`
and absorb a `NotImplementedError` into `_sort_f = None`. -/
def SortOrderChecker.mk' {κ : Type} (sortKey : Except String (MafRecord → Except String κ)) :
    SortOrderChecker κ :=
  ⟨Option.none, sortKey.toOption⟩

/-- The message of the `ValueError` raised by `SortOrderChecker.__iadd__`
on an out-of-order record: `"Records out of order\n%s\n%s"` with the
previous then the offending record's string forms. -/
def orderViolationMsg (recStr : MafRecord → String) (last rec : MafRecord) : String :=
  "Records out of order\n" ++ recStr last ++ "\n" ++ recStr rec

/-- `SortOrderChecker.__iadd__(rec)` (also `add`): when both `_last_rec`
and `_sort_f` are truthy, derive both keys and raise when
`rec_key < last_rec_key` (`SortOrderKey.__lt__`: `__cmp__ < 0`); on every
non-raising path set `_last_rec = rec`.  A raise (key derivation or order
violation) exits before that assignment, so the returned state is the
unchanged `c`; the raised message is the `some` component.  `cmp` is the
key type's `__cmp__` and `recStr` the records' external `__str__`. -/
def SortOrderChecker.iadd {κ : Type} (cmp : κ → κ → Int) (recStr : MafRecord → String)
    (c : SortOrderChecker κ) (rec : MafRecord) : SortOrderChecker κ × Option String :=
  match c.last_rec, c.sort_f with
  | some last, some f =>
    match f rec with
    | Except.error m => (c, some m)
    | Except.ok rec_key =>
      match f last with
      | Except.error m => (c, some m)
      | Except.ok last_rec_key =>
        if cmp rec_key last_rec_key < 0 then
          (c, some (orderViolationMsg recStr last rec))
        else
          ({ c with last_rec := some rec }, Option.none)
  | _, _ => ({ c with last_rec := some rec }, Option.none)

/-- Repeated `checker.add(...)` over a list of records, stopping at the
first raised error. -/
def runChecker {κ : Type} (cmp : κ → κ → Int) (recStr : MafRecord → String)
    (c : SortOrderChecker κ) : List MafRecord → SortOrderChecker κ × Option String
  | [] => (c, Option.none)
  | r :: rs =>
    match SortOrderChecker.iadd cmp recStr c r with
    | (c', Option.none) => runChecker cmp recStr c' rs
    | (c', some m) => (c', some m)

/-- `SortOrderEnforcingIterator` run to exhaustion over a (finite) wrapped
sequence: each `__next__` pulls a record, feeds it to the checker, and
yields it; a raise from the checker ends the iteration at that element.
Returns the yielded elements, the final checker state, and the raised
message if any. -/
def enforceIterate {κ : Type} (cmp : κ → κ → Int) (recStr : MafRecord → String)
    (c : SortOrderChecker κ) :
    List MafRecord → List MafRecord × SortOrderChecker κ × Option String
  | [] => ([], c, Option.none)
  | r :: rs =>
    match SortOrderChecker.iadd cmp recStr c r with
    | (c', Option.none) =>
      let p := enforceIterate cmp recStr c' rs
      (r :: p.1, p.2.1, p.2.2)
    | (c', some m) => ([], c', some m)

/-- The record that `_last_rec` holds after a run of accepted `add`s,
starting from `init`. -/
def lastAccepted (init : Option MafRecord) (recs : List MafRecord) : Option MafRecord :=
  recs.foldl (fun _ r => some r) init

/-- `rs` is accepted step by step after `p`: each adjacent key pair
compares non-negatively. -/
def acceptedChainFromB {κ : Type} (cmp : κ → κ → Int) (k : MafRecord → κ)
    (p : MafRecord) : List MafRecord → Bool
  | [] => true
  | r :: rs => (decide (0 ≤ cmp (k r) (k p))) && acceptedChainFromB cmp k r rs

/-- The whole list is in the declared order (adjacent keys compare
non-negatively). -/
def acceptedChainB {κ : Type} (cmp : κ → κ → Int) (k : MafRecord → κ) :
    List MafRecord → Bool
  | [] => true
  | r :: rs => acceptedChainFromB cmp k r rs

/-- `needle` occurs contiguously inside `hay`. -/
def strContains (hay needle : String) : Prop :=
  needle.data <:+: hay.data

theorem strContains_parts (hay needle : String) (pre post : List Char)
    (h : hay.data = pre ++ (needle.data ++ post)) : strContains hay needle :=
  ⟨pre, post, by rw [List.append_assoc]; exact h.symm⟩

theorem compare_self {α : Type} [LinearOrder α] (o : Option α) :
    SortOrderKey.compare o o = 0 := by
  cases o with
  | none => rfl
  | some a => simp [SortOrderKey.compare]

theorem compare_some_lt {α : Type} [LinearOrder α] {a b : α} (h : a < b) :
    SortOrderKey.compare (some a) (some b) = -1 := by
  simp [SortOrderKey.compare, h, lt_asymm h]

theorem compare_cases {α : Type} [LinearOrder α] (o1 o2 : Option α) :
    SortOrderKey.compare o1 o2 = -1 ∨ SortOrderKey.compare o1 o2 = 0 ∨
      SortOrderKey.compare o1 o2 = 1 := by
  rcases o1 with _ | a <;> rcases o2 with _ | b
  · simp [SortOrderKey.compare]
  · simp [SortOrderKey.compare]
  · simp [SortOrderKey.compare]
  · simp only [SortOrderKey.compare]
    split_ifs <;> norm_num

theorem cmp_of_chrom_ne {χ : Type} [LinearOrder χ] (a b : CoordinateKey χ)
    (h : SortOrderKey.compare a.chromosome b.chromosome ≠ 0) :
    CoordinateKey.cmp a b = SortOrderKey.compare a.chromosome b.chromosome := by
  simp [CoordinateKey.cmp, h]

theorem cmp_of_start {χ : Type} [LinearOrder χ] (a b : CoordinateKey χ)
    (h0 : SortOrderKey.compare a.chromosome b.chromosome = 0)
    (h1 : SortOrderKey.compare a.start b.start ≠ 0) :
    CoordinateKey.cmp a b = SortOrderKey.compare a.start b.start := by
  simp [CoordinateKey.cmp, h0, h1]

theorem cmp_of_end {χ : Type} [LinearOrder χ] (a b : CoordinateKey χ)
    (h0 : SortOrderKey.compare a.chromosome b.chromosome = 0)
    (h1 : SortOrderKey.compare a.start b.start = 0) :
    CoordinateKey.cmp a b = SortOrderKey.compare a.«end» b.«end» := by
  simp [CoordinateKey.cmp, h0, h1]

theorem cmp_cases {χ : Type} [LinearOrder χ] (a b : CoordinateKey χ) :
    CoordinateKey.cmp a b = -1 ∨ CoordinateKey.cmp a b = 0 ∨ CoordinateKey.cmp a b = 1 := by
  by_cases h0 : SortOrderKey.compare a.chromosome b.chromosome = 0
  · by_cases h1 : SortOrderKey.compare a.start b.start = 0
    · rw [cmp_of_end a b h0 h1]; exact compare_cases _ _
    · rw [cmp_of_start a b h0 h1]; exact compare_cases _ _
  · rw [cmp_of_chrom_ne a b h0]; exact compare_cases _ _

theorem bcmp_of_tumor_ne {χ : Type} [LinearOrder χ] (a b : BarcodesAndCoordinateKey χ)
    (h : SortOrderKey.compare a.tumor_barcode b.tumor_barcode ≠ 0) :
    BarcodesAndCoordinateKey.cmp a b = SortOrderKey.compare a.tumor_barcode b.tumor_barcode := by
  simp [BarcodesAndCoordinateKey.cmp, h]

theorem bcmp_of_normal {χ : Type} [LinearOrder χ] (a b : BarcodesAndCoordinateKey χ)
    (h0 : SortOrderKey.compare a.tumor_barcode b.tumor_barcode = 0)
    (h1 : SortOrderKey.compare a.normal_barcode b.normal_barcode ≠ 0) :
    BarcodesAndCoordinateKey.cmp a b = SortOrderKey.compare a.normal_barcode b.normal_barcode := by
  simp [BarcodesAndCoordinateKey.cmp, h0, h1]

theorem bcmp_of_coord {χ : Type} [LinearOrder χ] (a b : BarcodesAndCoordinateKey χ)
    (h0 : SortOrderKey.compare a.tumor_barcode b.tumor_barcode = 0)
    (h1 : SortOrderKey.compare a.normal_barcode b.normal_barcode = 0) :
    BarcodesAndCoordinateKey.cmp a b = CoordinateKey.cmp a.toCoordinateKey b.toCoordinateKey := by
  simp [BarcodesAndCoordinateKey.cmp, h0, h1]

theorem listIndex_eq_none {l : List String} {x : String} (h : x ∉ l) :
    listIndex l x = Option.none := by
  induction l with
  | nil => rfl
  | cons y ys ih =>
    rw [List.mem_cons, not_or] at h
    have hyx : ¬y = x := fun hyx => h.1 hyx.symm
    simp [listIndex, hyx, ih h.2]

/-- C5: the generic null-handling rule of `SortOrderKey.compare`, uniform
in the compared type (hence in the field position): two nulls compare
equal, a non-null value compares `-1` against a null (non-null first),
and a null compares `1` against a non-null value. -/
theorem C5_compare_null_handling {α : Type} [LinearOrder α] (a : α) :
    SortOrderKey.compare (α := α) Option.none Option.none = 0
    ∧ SortOrderKey.compare (some a) Option.none = -1
    ∧ SortOrderKey.compare Option.none (some a) = 1 :=
  ⟨rfl, rfl, rfl⟩

/-- C5 witness: the null-handling rule at a concrete value. -/
theorem C5_compare_null_handling_witness :
    SortOrderKey.compare (α := Int) Option.none Option.none = 0
    ∧ SortOrderKey.compare (some (7 : Int)) Option.none = -1
    ∧ SortOrderKey.compare Option.none (some (7 : Int)) = 1 :=
  C5_compare_null_handling 7

/-- C3: for records keyed under `Coordinate` with a configured contig
list, the key whose chromosome has the lower rank compares strictly less
regardless of start/end; on equal rank the lower start compares strictly
less; on equal rank and start the end decides; the three-way comparison
short-circuits on the first non-zero field result and always returns a
value in `{-1, 0, 1}`. -/
theorem C3_coordinate_key_ordering (contigs : List String) (r1 r2 : MafRecord)
    (k1 k2 : CoordinateKey Nat)
    (hk1 : mkCoordinateKeyRanked contigs r1 = Except.ok k1)
    (hk2 : mkCoordinateKeyRanked contigs r2 = Except.ok k2) :
    (∀ i1 i2 : Nat, k1.chromosome = some i1 → k2.chromosome = some i2 → i1 < i2 →
      CoordinateKey.cmp k1 k2 = -1)
    ∧ (k1.chromosome = k2.chromosome → ∀ s1 s2 : Int, k1.start = some s1 →
        k2.start = some s2 → s1 < s2 → CoordinateKey.cmp k1 k2 = -1)
    ∧ (k1.chromosome = k2.chromosome → k1.start = k2.start →
        CoordinateKey.cmp k1 k2 = SortOrderKey.compare k1.«end» k2.«end»)
    ∧ (SortOrderKey.compare k1.chromosome k2.chromosome ≠ 0 →
        CoordinateKey.cmp k1 k2 = SortOrderKey.compare k1.chromosome k2.chromosome)
    ∧ (SortOrderKey.compare k1.chromosome k2.chromosome = 0 →
        SortOrderKey.compare k1.start k2.start ≠ 0 →
        CoordinateKey.cmp k1 k2 = SortOrderKey.compare k1.start k2.start)
    ∧ (CoordinateKey.cmp k1 k2 = -1 ∨ CoordinateKey.cmp k1 k2 = 0 ∨
        CoordinateKey.cmp k1 k2 = 1) := by
  refine ⟨?_, ?_, ?_, ?_, ?_, ?_⟩
  · intro i1 i2 h1 h2 hlt
    have hc : SortOrderKey.compare k1.chromosome k2.chromosome = -1 := by
      rw [h1, h2]; exact compare_some_lt hlt
    rw [cmp_of_chrom_ne k1 k2 (by rw [hc]; norm_num), hc]
  · intro hch s1 s2 hs1 hs2 hlt
    have h0 : SortOrderKey.compare k1.chromosome k2.chromosome = 0 := by
      rw [hch]; exact compare_self _
    have hs : SortOrderKey.compare k1.start k2.start = -1 := by
      rw [hs1, hs2]; exact compare_some_lt hlt
    rw [cmp_of_start k1 k2 h0 (by rw [hs]; norm_num), hs]
  · intro hch hst
    exact cmp_of_end k1 k2 (by rw [hch]; exact compare_self _)
      (by rw [hst]; exact compare_self _)
  · exact cmp_of_chrom_ne k1 k2
  · exact cmp_of_start k1 k2
  · exact cmp_cases k1 k2

/-- C3 witness: with contigs `["chr1", "chr2"]`, a record on `chr1` with
large start/end still compares `-1` against a record on `chr2`. -/
theorem C3_coordinate_key_ordering_witness :
    CoordinateKey.cmp (⟨some 0, some 500, some 600⟩ : CoordinateKey Nat)
      ⟨some 1, some 1, some 2⟩ = -1 :=
  (C3_coordinate_key_ordering ["chr1", "chr2"]
      ⟨some "chr1", some 500, some 600, Option.none, Option.none⟩
      ⟨some "chr2", some 1, some 2, Option.none, Option.none⟩
      ⟨some 0, some 500, some 600⟩ ⟨some 1, some 1, some 2⟩ rfl rfl).1
    0 1 rfl rfl (by decide)

/-- C4: for records keyed under `BarcodesAndCoordinate`, differing tumor
barcodes decide the comparison by the barcode comparison alone; equal
tumor barcodes fall through to the normal barcode; equal barcode pairs
delegate to the `Coordinate` comparison of the same records (the
contained coordinate key is exactly the `Coordinate` key of the record). -/
theorem C4_barcodes_key_ordering (contigs : List String) (r1 r2 : MafRecord)
    (b1 b2 : BarcodesAndCoordinateKey Nat)
    (hb1 : mkBarcodesAndCoordinateKeyRanked contigs r1 = Except.ok b1)
    (hb2 : mkBarcodesAndCoordinateKeyRanked contigs r2 = Except.ok b2) :
    (SortOrderKey.compare b1.tumor_barcode b2.tumor_barcode ≠ 0 →
      BarcodesAndCoordinateKey.cmp b1 b2 =
        SortOrderKey.compare b1.tumor_barcode b2.tumor_barcode)
    ∧ (SortOrderKey.compare b1.tumor_barcode b2.tumor_barcode = 0 →
       SortOrderKey.compare b1.normal_barcode b2.normal_barcode ≠ 0 →
      BarcodesAndCoordinateKey.cmp b1 b2 =
        SortOrderKey.compare b1.normal_barcode b2.normal_barcode)
    ∧ (SortOrderKey.compare b1.tumor_barcode b2.tumor_barcode = 0 →
       SortOrderKey.compare b1.normal_barcode b2.normal_barcode = 0 →
      BarcodesAndCoordinateKey.cmp b1 b2 =
        CoordinateKey.cmp b1.toCoordinateKey b2.toCoordinateKey)
    ∧ mkCoordinateKeyRanked contigs r1 = Except.ok b1.toCoordinateKey
    ∧ mkCoordinateKeyRanked contigs r2 = Except.ok b2.toCoordinateKey
    ∧ b1.tumor_barcode = r1.tumor_barcode ∧ b2.tumor_barcode = r2.tumor_barcode
    ∧ b1.normal_barcode = r1.normal_barcode ∧ b2.normal_barcode = r2.normal_barcode := by
  have e1 : mkCoordinateKeyRanked contigs r1 = Except.ok b1.toCoordinateKey
      ∧ b1.tumor_barcode = r1.tumor_barcode ∧ b1.normal_barcode = r1.normal_barcode := by
    unfold mkBarcodesAndCoordinateKeyRanked at hb1
    cases h : mkCoordinateKeyRanked contigs r1 with
    | error m => rw [h] at hb1; simp [Except.map] at hb1
    | ok ck =>
      rw [h] at hb1; simp [Except.map] at hb1
      rw [← hb1]
      exact ⟨rfl, rfl, rfl⟩
  have e2 : mkCoordinateKeyRanked contigs r2 = Except.ok b2.toCoordinateKey
      ∧ b2.tumor_barcode = r2.tumor_barcode ∧ b2.normal_barcode = r2.normal_barcode := by
    unfold mkBarcodesAndCoordinateKeyRanked at hb2
    cases h : mkCoordinateKeyRanked contigs r2 with
    | error m => rw [h] at hb2; simp [Except.map] at hb2
    | ok ck =>
      rw [h] at hb2; simp [Except.map] at hb2
      rw [← hb2]
      exact ⟨rfl, rfl, rfl⟩
  exact ⟨bcmp_of_tumor_ne b1 b2, bcmp_of_normal b1 b2, bcmp_of_coord b1 b2,
    e1.1, e2.1, e1.2.1, e2.2.1, e1.2.2, e2.2.2⟩

/-- C4 witness: with contigs `["chr1", "chr2"]`, two records whose tumor
barcodes differ compare by the barcodes alone even though the coordinates
order the other way. -/
theorem C4_barcodes_key_ordering_witness :
    BarcodesAndCoordinateKey.cmp
      (⟨some "TA", some "NA", ⟨some 1, some 9, some 9⟩⟩ : BarcodesAndCoordinateKey Nat)
      ⟨Option.none, some "NB", ⟨some 0, some 1, some 1⟩⟩ =
      SortOrderKey.compare (some "TA") (Option.none : Option String) :=
  (C4_barcodes_key_ordering ["chr1", "chr2"]
      ⟨some "chr2", some 9, some 9, some "TA", some "NA"⟩
      ⟨some "chr1", some 1, some 1, Option.none, some "NB"⟩
      ⟨some "TA", some "NA", ⟨some 1, some 9, some 9⟩⟩
      ⟨Option.none, some "NB", ⟨some 0, some 1, some 1⟩⟩ rfl rfl).1
    (by decide)

/-- C8: a record whose chromosome is absent from a configured non-empty
contig list makes `Coordinate` (and `BarcodesAndCoordinate`) key
derivation fail with the unknown-contig `ValueError`, whose message
contains the offending chromosome name and the comma-separated list of
known contigs. -/
theorem C8_unknown_contig_error (contigs : List String) (r : MafRecord) (c : String)
    (hne : contigs ≠ []) (hc : r.chromosome = some c) (hmem : c ∉ contigs) :
    mkCoordinateKeyRanked contigs r = Except.error (unknownContigMsg (some c) contigs)
    ∧ mkBarcodesAndCoordinateKeyRanked contigs r =
        Except.error (unknownContigMsg (some c) contigs)
    ∧ strContains (unknownContigMsg (some c) contigs) c
    ∧ strContains (unknownContigMsg (some c) contigs) (String.intercalate ", " contigs) := by
  have hidx : listIndex contigs c = Option.none := listIndex_eq_none hmem
  have h1 : mkCoordinateKeyRanked contigs r =
      Except.error (unknownContigMsg (some c) contigs) := by
    simp [mkCoordinateKeyRanked, hc, hidx]
  refine ⟨h1, ?_, ?_, ?_⟩
  · simp [mkBarcodesAndCoordinateKeyRanked, h1, Except.map]
  · apply strContains_parts _ _ ("Could not find contig '".data)
      (("' in list of contigs: " ++ String.intercalate ", " contigs).data)
    simp [unknownContigMsg, pyStrOfOpt, String.data_append]
  · apply strContains_parts _ _
      (("Could not find contig '" ++ c ++ "' in list of contigs: ").data) []
    simp [unknownContigMsg, pyStrOfOpt, String.data_append]

/-- C8 witness: the unknown contig `chrX` against contigs
`["chr1", "chr2", "chr3"]`. -/
theorem C8_unknown_contig_error_witness :
    mkCoordinateKeyRanked ["chr1", "chr2", "chr3"]
        ⟨some "chrX", some 1, some 2, Option.none, Option.none⟩ =
      Except.error (unknownContigMsg (some "chrX") ["chr1", "chr2", "chr3"])
    ∧ strContains (unknownContigMsg (some "chrX") ["chr1", "chr2", "chr3"]) "chrX"
    ∧ strContains (unknownContigMsg (some "chrX") ["chr1", "chr2", "chr3"])
        (String.intercalate ", " ["chr1", "chr2", "chr3"]) :=
  have h := C8_unknown_contig_error ["chr1", "chr2", "chr3"]
    ⟨some "chrX", some 1, some 2, Option.none, Option.none⟩ "chrX"
    (by decide) rfl (by decide)
  ⟨h.1, h.2.2.1, h.2.2.2⟩

/-- C10: an empty explicit contig list behaves exactly as no contig list:
`Coordinate.__init__` normalises both to no configured contigs, the
derived key is the raw key (chromosome kept verbatim, so compared by its
natural ordering) under both configurations, for `Coordinate` and for
`BarcodesAndCoordinate`, and no unknown-contig error is possible. -/
theorem C10_empty_contigs_like_none (r : MafRecord) :
    coordinateInitContigs (some []) = coordinateInitContigs Option.none
    ∧ coordinateSortKeyFn (some []) r =
        Except.ok (DerivedCoordinateKey.raw (mkCoordinateKeyRaw r))
    ∧ coordinateSortKeyFn (some []) r = coordinateSortKeyFn Option.none r
    ∧ barcodesSortKeyFn (some []) r = barcodesSortKeyFn Option.none r
    ∧ (mkCoordinateKeyRaw r).chromosome = r.chromosome :=
  ⟨rfl, rfl, rfl, rfl, rfl⟩

/-- C10 witness: a record on an arbitrary contig name derives a raw key
under the empty contig list, with no error. -/
theorem C10_empty_contigs_like_none_witness :
    coordinateSortKeyFn (some []) ⟨some "weird", some 3, some 4, Option.none, Option.none⟩ =
      Except.ok (DerivedCoordinateKey.raw ⟨some "weird", some 3, some 4⟩)
    ∧ coordinateSortKeyFn (some []) ⟨some "weird", some 3, some 4, Option.none, Option.none⟩ =
      coordinateSortKeyFn Option.none ⟨some "weird", some 3, some 4, Option.none, Option.none⟩ :=
  have h := C10_empty_contigs_like_none ⟨some "weird", some 3, some 4, Option.none, Option.none⟩
  ⟨h.2.1, h.2.2.1⟩

theorem iadd_some_some {κ : Type} (cmp : κ → κ → Int) (recStr : MafRecord → String)
    (p r : MafRecord) (f : MafRecord → Except String κ) (kp kr : κ)
    (hkr : f r = Except.ok kr) (hkp : f p = Except.ok kp) :
    SortOrderChecker.iadd cmp recStr ⟨some p, some f⟩ r =
      if cmp kr kp < 0 then
        (⟨some p, some f⟩, some (orderViolationMsg recStr p r))
      else (⟨some r, some f⟩, Option.none) := by
  simp only [SortOrderChecker.iadd, hkr, hkp]

theorem iadd_no_sortf {κ : Type} (cmp : κ → κ → Int) (recStr : MafRecord → String)
    (c : SortOrderChecker κ) (r : MafRecord) (h : c.sort_f = Option.none) :
    SortOrderChecker.iadd cmp recStr c r =
      ({ c with last_rec := some r }, Option.none) := by
  obtain ⟨lr, sf⟩ := c
  change sf = Option.none at h
  subst h
  cases lr <;> rfl

theorem iadd_no_last {κ : Type} (cmp : κ → κ → Int) (recStr : MafRecord → String)
    (c : SortOrderChecker κ) (r : MafRecord) (h : c.last_rec = Option.none) :
    SortOrderChecker.iadd cmp recStr c r =
      ({ c with last_rec := some r }, Option.none) := by
  obtain ⟨lr, sf⟩ := c
  change lr = Option.none at h
  subst h
  cases sf <;> rfl

/-- C1: against an ordering with a usable key function bound in the
checker (`_sort_f` set, as `Coordinate`/`BarcodesAndCoordinate` set it),
an `add(r)` after an accepted previous record `p` raises exactly when
`key(r) < key(p)`; the raised message contains the string forms of both
`p` and `r`; and every accepting path installs `r` as the new previous
record. -/
theorem C1_checker_order_violation {κ : Type} (cmp : κ → κ → Int)
    (recStr : MafRecord → String) (f : MafRecord → Except String κ)
    (c : SortOrderChecker κ) (p r : MafRecord) (kp kr : κ)
    (hlast : c.last_rec = some p) (hf : c.sort_f = some f)
    (hkr : f r = Except.ok kr) (hkp : f p = Except.ok kp) :
    ((SortOrderChecker.iadd cmp recStr c r).2.isSome ↔ cmp kr kp < 0)
    ∧ (cmp kr kp < 0 →
        SortOrderChecker.iadd cmp recStr c r = (c, some (orderViolationMsg recStr p r))
        ∧ strContains (orderViolationMsg recStr p r) (recStr p)
        ∧ strContains (orderViolationMsg recStr p r) (recStr r))
    ∧ (0 ≤ cmp kr kp →
        SortOrderChecker.iadd cmp recStr c r =
          ({ c with last_rec := some r }, Option.none)) := by
  obtain ⟨lr, sf⟩ := c
  change lr = some p at hlast
  change sf = some f at hf
  subst hlast; subst hf
  have hia := iadd_some_some cmp recStr p r f kp kr hkr hkp
  refine ⟨?_, ?_, ?_⟩
  · rw [hia]
    by_cases hlt : cmp kr kp < 0
    · simp [hlt]
    · simp [hlt]
  · intro hlt
    rw [hia, if_pos hlt]
    refine ⟨rfl, ?_, ?_⟩
    · exact strContains_parts _ _ ("Records out of order\n".data) (("\n" ++ recStr r).data)
        (by simp [orderViolationMsg, String.data_append])
    · exact strContains_parts _ _ (("Records out of order\n" ++ recStr p ++ "\n").data) []
        (by simp [orderViolationMsg, String.data_append])
  · intro hge
    rw [hia, if_neg (not_lt.mpr hge)]

/-- C1 witness: under `Coordinate` with contigs `["chr1", "chr2"]`, a
record on `chr1` added after an accepted record on `chr2` raises the
order violation, whose message contains both string forms. -/
theorem C1_checker_order_violation_witness :
    SortOrderChecker.iadd CoordinateKey.cmp (fun x => pyStrOfOpt x.chromosome)
        ⟨some ⟨some "chr2", some 1, some 2, Option.none, Option.none⟩,
         some (mkCoordinateKeyRanked ["chr1", "chr2"])⟩
        ⟨some "chr1", some 1, some 2, Option.none, Option.none⟩ =
      (⟨some ⟨some "chr2", some 1, some 2, Option.none, Option.none⟩,
        some (mkCoordinateKeyRanked ["chr1", "chr2"])⟩,
       some (orderViolationMsg (fun x => pyStrOfOpt x.chromosome)
          ⟨some "chr2", some 1, some 2, Option.none, Option.none⟩
          ⟨some "chr1", some 1, some 2, Option.none, Option.none⟩))
    ∧ strContains (orderViolationMsg (fun x => pyStrOfOpt x.chromosome)
          ⟨some "chr2", some 1, some 2, Option.none, Option.none⟩
          ⟨some "chr1", some 1, some 2, Option.none, Option.none⟩)
        (pyStrOfOpt (some "chr2"))
    ∧ strContains (orderViolationMsg (fun x => pyStrOfOpt x.chromosome)
          ⟨some "chr2", some 1, some 2, Option.none, Option.none⟩
          ⟨some "chr1", some 1, some 2, Option.none, Option.none⟩)
        (pyStrOfOpt (some "chr1")) :=
  (C1_checker_order_violation CoordinateKey.cmp (fun x => pyStrOfOpt x.chromosome)
      (mkCoordinateKeyRanked ["chr1", "chr2"])
      ⟨some ⟨some "chr2", some 1, some 2, Option.none, Option.none⟩,
       some (mkCoordinateKeyRanked ["chr1", "chr2"])⟩
      ⟨some "chr2", some 1, some 2, Option.none, Option.none⟩
      ⟨some "chr1", some 1, some 2, Option.none, Option.none⟩
      ⟨some 1, some 1, some 2⟩ ⟨some 0, some 1, some 2⟩
      rfl rfl rfl rfl).2.1 (by decide)

/-- C9: a raising `add` (order violation or key-derivation failure)
leaves the checker state unchanged: the stored previous record is still
the one accepted before the violation, never the rejected record. -/
theorem C9_raise_leaves_state {κ : Type} (cmp : κ → κ → Int)
    (recStr : MafRecord → String) (c : SortOrderChecker κ) (r : MafRecord) (m : String)
    (h : (SortOrderChecker.iadd cmp recStr c r).2 = some m) :
    (SortOrderChecker.iadd cmp recStr c r).1 = c
    ∧ ∀ p, c.last_rec = some p →
        (SortOrderChecker.iadd cmp recStr c r).1.last_rec = some p := by
  have key : (SortOrderChecker.iadd cmp recStr c r).2 = some m →
      (SortOrderChecker.iadd cmp recStr c r).1 = c := by
    obtain ⟨lr, sf⟩ := c
    cases lr with
    | none =>
      intro hs
      rw [iadd_no_last cmp recStr _ r rfl] at hs
      simp at hs
    | some last =>
      cases sf with
      | none =>
        intro hs
        rw [iadd_no_sortf cmp recStr _ r rfl] at hs
        simp at hs
      | some f =>
        cases hfr : f r with
        | error m1 => intro _; simp [SortOrderChecker.iadd, hfr]
        | ok kr =>
          cases hfp : f last with
          | error m2 => intro _; simp [SortOrderChecker.iadd, hfr, hfp]
          | ok kp =>
            by_cases hlt : cmp kr kp < 0
            · intro _; simp [SortOrderChecker.iadd, hfr, hfp, hlt]
            · intro hs; simp [SortOrderChecker.iadd, hfr, hfp, hlt] at hs
  exact ⟨key h, fun p hp => by rw [key h]; exact hp⟩

/-- C9 witness: after the violation of the C1 scenario, the previous
record is still the `chr2` record, not the rejected `chr1` record. -/
theorem C9_raise_leaves_state_witness :
    (SortOrderChecker.iadd CoordinateKey.cmp (fun x => pyStrOfOpt x.chromosome)
        ⟨some ⟨some "chr2", some 1, some 2, Option.none, Option.none⟩,
         some (mkCoordinateKeyRanked ["chr1", "chr2"])⟩
        ⟨some "chr1", some 1, some 2, Option.none, Option.none⟩).1.last_rec =
      some ⟨some "chr2", some 1, some 2, Option.none, Option.none⟩ :=
  (C9_raise_leaves_state CoordinateKey.cmp (fun x => pyStrOfOpt x.chromosome)
      ⟨some ⟨some "chr2", some 1, some 2, Option.none, Option.none⟩,
       some (mkCoordinateKeyRanked ["chr1", "chr2"])⟩
      ⟨some "chr1", some 1, some 2, Option.none, Option.none⟩
      (orderViolationMsg (fun x => pyStrOfOpt x.chromosome)
        ⟨some "chr2", some 1, some 2, Option.none, Option.none⟩
        ⟨some "chr1", some 1, some 2, Option.none, Option.none⟩)
      (by rfl)).2
    ⟨some "chr2", some 1, some 2, Option.none, Option.none⟩ rfl

theorem runChecker_no_sortf {κ : Type} (cmp : κ → κ → Int) (recStr : MafRecord → String) :
    ∀ (recs : List MafRecord) (c : SortOrderChecker κ), c.sort_f = Option.none →
      runChecker cmp recStr c recs =
        (⟨lastAccepted c.last_rec recs, Option.none⟩, Option.none) := by
  intro recs
  induction recs with
  | nil =>
    intro c h
    obtain ⟨lr, sf⟩ := c
    change sf = Option.none at h
    subst h
    rfl
  | cons r rs ih =>
    intro c h
    simp only [runChecker, iadd_no_sortf cmp recStr c r h]
    exact ih _ h

/-- C2: a checker constructed with the `Unknown` or `Unsorted` ordering
absorbs the "ordering not supported" signal at construction; every later
`add` is a non-raising no-op that still advances the previous record,
over every sequence of adds. -/
theorem C2_unchecked_never_raises (cmp : Unit → Unit → Int)
    (recStr : MafRecord → String) (recs : List MafRecord) :
    runChecker cmp recStr (SortOrderChecker.mk' unknownSortKey) recs =
      (⟨lastAccepted Option.none recs, Option.none⟩, Option.none)
    ∧ runChecker cmp recStr (SortOrderChecker.mk' unsortedSortKey) recs =
      (⟨lastAccepted Option.none recs, Option.none⟩, Option.none) :=
  ⟨runChecker_no_sortf cmp recStr recs _ rfl,
   runChecker_no_sortf cmp recStr recs _ rfl⟩

/-- C2 witness: a reverse-sorted pair of records raises nothing under
`Unknown`, and the previous-record slot still advances. -/
theorem C2_unchecked_never_raises_witness :
    runChecker (fun _ _ => 0) (fun _ => "") (SortOrderChecker.mk' unknownSortKey)
        [⟨some "chr2", some 9, some 9, Option.none, Option.none⟩,
         ⟨some "chr1", some 1, some 1, Option.none, Option.none⟩] =
      (⟨some ⟨some "chr1", some 1, some 1, Option.none, Option.none⟩, Option.none⟩,
       Option.none) :=
  (C2_unchecked_never_raises (fun _ _ => 0) (fun _ => "")
      [⟨some "chr2", some 9, some 9, Option.none, Option.none⟩,
       ⟨some "chr1", some 1, some 1, Option.none, Option.none⟩]).1

theorem enforce_ok_from {κ : Type} (cmp : κ → κ → Int) (recStr : MafRecord → String)
    (f : MafRecord → Except String κ) (k : MafRecord → κ) :
    ∀ (recs : List MafRecord) (p : MafRecord),
      f p = Except.ok (k p) → (∀ r ∈ recs, f r = Except.ok (k r)) →
      acceptedChainFromB cmp k p recs = true →
      enforceIterate cmp recStr ⟨some p, some f⟩ recs =
        (recs, ⟨some (recs.getLastD p), some f⟩, Option.none) := by
  intro recs
  induction recs with
  | nil => intro p _ _ _; rfl
  | cons r rs ih =>
    intro p hp hall hchain
    simp only [acceptedChainFromB, Bool.and_eq_true, decide_eq_true_eq] at hchain
    have hfr : f r = Except.ok (k r) := hall r (List.mem_cons_self r rs)
    have hia : SortOrderChecker.iadd cmp recStr ⟨some p, some f⟩ r =
        (⟨some r, some f⟩, Option.none) := by
      rw [iadd_some_some cmp recStr p r f (k p) (k r) hfr hp,
        if_neg (not_lt.mpr hchain.1)]
    simp only [enforceIterate, hia]
    rw [ih r hfr (fun x hx => hall x (List.mem_cons_of_mem _ hx)) hchain.2,
      List.getLastD_cons]

theorem enforce_stop_from {κ : Type} (cmp : κ → κ → Int) (recStr : MafRecord → String)
    (f : MafRecord → Except String κ) (k : MafRecord → κ) :
    ∀ (xs : List MafRecord) (p bad : MafRecord) (rest : List MafRecord),
      f p = Except.ok (k p) → (∀ r ∈ xs, f r = Except.ok (k r)) →
      f bad = Except.ok (k bad) →
      acceptedChainFromB cmp k p xs = true →
      cmp (k bad) (k (xs.getLastD p)) < 0 →
      enforceIterate cmp recStr ⟨some p, some f⟩ (xs ++ bad :: rest) =
        (xs, ⟨some (xs.getLastD p), some f⟩,
         some (orderViolationMsg recStr (xs.getLastD p) bad)) := by
  intro xs
  induction xs with
  | nil =>
    intro p bad rest hp _ hbad _ hlt
    have hlt' : cmp (k bad) (k p) < 0 := hlt
    have hia : SortOrderChecker.iadd cmp recStr ⟨some p, some f⟩ bad =
        (⟨some p, some f⟩, some (orderViolationMsg recStr p bad)) := by
      rw [iadd_some_some cmp recStr p bad f (k p) (k bad) hbad hp, if_pos hlt']
    simp only [List.nil_append, enforceIterate, hia, List.getLastD]
  | cons x xs' ih =>
    intro p bad rest hp hall hbad hchain hlt
    simp only [acceptedChainFromB, Bool.and_eq_true, decide_eq_true_eq] at hchain
    rw [List.getLastD_cons] at hlt
    have hfx : f x = Except.ok (k x) := hall x (List.mem_cons_self x xs')
    have hia : SortOrderChecker.iadd cmp recStr ⟨some p, some f⟩ x =
        (⟨some x, some f⟩, Option.none) := by
      rw [iadd_some_some cmp recStr p x f (k p) (k x) hfx hp,
        if_neg (not_lt.mpr hchain.1)]
    simp only [List.cons_append, enforceIterate, hia, List.append_eq]
    rw [ih x bad rest hfx (fun r hr => hall r (List.mem_cons_of_mem _ hr)) hbad
      hchain.2 hlt, List.getLastD_cons]

theorem lastAccepted_cons (rs : List MafRecord) :
    ∀ (r : MafRecord) (init : Option MafRecord),
      lastAccepted init (r :: rs) = some (rs.getLastD r) := by
  induction rs with
  | nil => intro r init; rfl
  | cons y ys ih =>
    intro r init
    rw [List.getLastD_cons]
    exact ih y (some r)

/-- C6: the enforcing iterator over an in-order input yields exactly the
input's elements in order and ends with the input (no raise); over an
input whose first violation is `bad` (preceded by the in-order prefix
`x :: xs`), it yields exactly that prefix unchanged and raises the order
violation at `bad`'s position. -/
theorem C6_enforcing_iterator_passthrough {κ : Type} (cmp : κ → κ → Int)
    (recStr : MafRecord → String) (f : MafRecord → Except String κ)
    (k : MafRecord → κ) :
    (∀ recs : List MafRecord, (∀ r ∈ recs, f r = Except.ok (k r)) →
      acceptedChainB cmp k recs = true →
      enforceIterate cmp recStr (SortOrderChecker.mk' (Except.ok f)) recs =
        (recs, ⟨lastAccepted Option.none recs, some f⟩, Option.none))
    ∧ (∀ (x : MafRecord) (xs : List MafRecord) (bad : MafRecord)
        (rest : List MafRecord),
      f x = Except.ok (k x) → (∀ r ∈ xs, f r = Except.ok (k r)) →
      f bad = Except.ok (k bad) →
      acceptedChainFromB cmp k x xs = true →
      cmp (k bad) (k (xs.getLastD x)) < 0 →
      (enforceIterate cmp recStr (SortOrderChecker.mk' (Except.ok f))
          (x :: (xs ++ bad :: rest))).1 = x :: xs
      ∧ (enforceIterate cmp recStr (SortOrderChecker.mk' (Except.ok f))
          (x :: (xs ++ bad :: rest))).2.2 =
          some (orderViolationMsg recStr (xs.getLastD x) bad)) := by
  have hstep : ∀ r : MafRecord,
      SortOrderChecker.iadd cmp recStr (SortOrderChecker.mk' (Except.ok f)) r =
        (⟨some r, some f⟩, Option.none) := fun r =>
    iadd_no_last cmp recStr _ r rfl
  constructor
  · intro recs hall hchain
    cases recs with
    | nil => rfl
    | cons r rs =>
      simp only [enforceIterate, hstep r]
      rw [enforce_ok_from cmp recStr f k rs r (hall r (List.mem_cons_self r rs))
        (fun x hx => hall x (List.mem_cons_of_mem _ hx)) hchain,
        lastAccepted_cons rs r Option.none]
  · intro x xs bad rest hx hall hbad hchain hlt
    simp only [enforceIterate, hstep x]
    rw [enforce_stop_from cmp recStr f k xs x bad rest hx hall hbad hchain hlt]
    exact ⟨rfl, rfl⟩

/-- C6 witness: under `Coordinate` with contigs `["chr1", "chr2"]`, a
sorted two-record input passes through unchanged, and an input whose
third record drops back to `chr1` yields the first two records and then
raises. -/
theorem C6_enforcing_iterator_passthrough_witness :
    enforceIterate CoordinateKey.cmp (fun x => pyStrOfOpt x.chromosome)
        (SortOrderChecker.mk' (Except.ok (mkCoordinateKeyRanked ["chr1", "chr2"])))
        [⟨some "chr1", some 1, some 2, Option.none, Option.none⟩,
         ⟨some "chr2", some 5, some 6, Option.none, Option.none⟩] =
      ([⟨some "chr1", some 1, some 2, Option.none, Option.none⟩,
        ⟨some "chr2", some 5, some 6, Option.none, Option.none⟩],
       ⟨some ⟨some "chr2", some 5, some 6, Option.none, Option.none⟩,
        some (mkCoordinateKeyRanked ["chr1", "chr2"])⟩, Option.none)
    ∧ (enforceIterate CoordinateKey.cmp (fun x => pyStrOfOpt x.chromosome)
        (SortOrderChecker.mk' (Except.ok (mkCoordinateKeyRanked ["chr1", "chr2"])))
        [⟨some "chr1", some 1, some 2, Option.none, Option.none⟩,
         ⟨some "chr2", some 5, some 6, Option.none, Option.none⟩,
         ⟨some "chr1", some 3, some 4, Option.none, Option.none⟩]).1 =
      [⟨some "chr1", some 1, some 2, Option.none, Option.none⟩,
       ⟨some "chr2", some 5, some 6, Option.none, Option.none⟩] :=
  ⟨(C6_enforcing_iterator_passthrough CoordinateKey.cmp (fun x => pyStrOfOpt x.chromosome)
      (mkCoordinateKeyRanked ["chr1", "chr2"])
      (fun r => ((mkCoordinateKeyRanked ["chr1", "chr2"] r).toOption).getD
        ⟨Option.none, Option.none, Option.none⟩)).1
    [⟨some "chr1", some 1, some 2, Option.none, Option.none⟩,
     ⟨some "chr2", some 5, some 6, Option.none, Option.none⟩]
    (by intro r hr; fin_cases hr <;> rfl) (by decide),
   ((C6_enforcing_iterator_passthrough CoordinateKey.cmp (fun x => pyStrOfOpt x.chromosome)
      (mkCoordinateKeyRanked ["chr1", "chr2"])
      (fun r => ((mkCoordinateKeyRanked ["chr1", "chr2"] r).toOption).getD
        ⟨Option.none, Option.none, Option.none⟩)).2
    ⟨some "chr1", some 1, some 2, Option.none, Option.none⟩
    [⟨some "chr2", some 5, some 6, Option.none, Option.none⟩]
    ⟨some "chr1", some 3, some 4, Option.none, Option.none⟩ []
    rfl (by intro r hr; fin_cases hr <;> rfl) rfl (by decide) (by decide)).1⟩

/-- C7: `find(V.name())` returns `V` for every variant of the fixed
registry `all() = [Unknown, Unsorted, BarcodesAndCoordinate, Coordinate]`,
and on any name matching no registered name (exactly, case-sensitively)
it returns no default but raises the `ValueError` whose message lists all
four registered names. -/
theorem C7_find_exact_registry :
    (∀ v : SortOrderVariant, v ∈ SortOrder.all ∧ SortOrder.find v.name = Except.ok v)
    ∧ (∀ n : String, (∀ v : SortOrderVariant, v.name ≠ n) →
        SortOrder.find n = Except.error (findErrorMsg n)
        ∧ strContains (findErrorMsg n)
            "Unknown, Unsorted, BarcodesAndCoordinate, Coordinate") := by
  constructor
  · intro v
    cases v <;> exact ⟨by simp [SortOrder.all], rfl⟩
  · intro n hn
    have h1 : (SortOrderVariant.name .Unknown == n) = false :=
      beq_eq_false_iff_ne.mpr (hn .Unknown)
    have h2 : (SortOrderVariant.name .Unsorted == n) = false :=
      beq_eq_false_iff_ne.mpr (hn .Unsorted)
    have h3 : (SortOrderVariant.name .BarcodesAndCoordinate == n) = false :=
      beq_eq_false_iff_ne.mpr (hn .BarcodesAndCoordinate)
    have h4 : (SortOrderVariant.name .Coordinate == n) = false :=
      beq_eq_false_iff_ne.mpr (hn .Coordinate)
    constructor
    · simp only [SortOrder.find, SortOrder.all, List.filter, h1, h2, h3, h4]
      rfl
    · exact strContains_parts _ _
        (("Could not find sort order '" ++ n ++ "', options: ").data) []
        (by simp [findErrorMsg, SortOrder.all, SortOrderVariant.name,
          String.data_append, String.intercalate]
            <;> decide)

/-- C7 witness: every registered name round-trips; the lowercase
`"coordinate"` matches nothing and produces the listing error. -/
theorem C7_find_exact_registry_witness :
    SortOrder.find "Coordinate" = Except.ok SortOrderVariant.Coordinate
    ∧ SortOrder.find "coordinate" = Except.error (findErrorMsg "coordinate")
    ∧ strContains (findErrorMsg "coordinate")
        "Unknown, Unsorted, BarcodesAndCoordinate, Coordinate" :=
  have hbad : ∀ v : SortOrderVariant, v.name ≠ "coordinate" := by
    intro v; cases v <;> decide
  ⟨(C7_find_exact_registry.1 SortOrderVariant.Coordinate).2,
   (C7_find_exact_registry.2 "coordinate" hbad).1,
   (C7_find_exact_registry.2 "coordinate" hbad).2⟩

end Maflib
